import Mathlib

/-!
Verification of the sphrosyne touch-controller core.

The model below is a shallow embedding of the JavaScript sources.  The
authoritative variant is the most complete one (the file embedding two
joysticks, boundary projection and the transport-readiness guard); the
older controller variant differs only in its touch-end handler, which is
embedded separately as `ontouchend_v0`.  JavaScript numbers are modelled
as real numbers, touch identifiers as naturals, and `Math.hypot` as the
square root of the sum of squares.
-/

namespace Sphrosyne

noncomputable section

/-- A circle hit region, as the plain x/y/r records used throughout the source. -/
structure Circle where
  x : ℝ
  y : ℝ
  r : ℝ

/-- A touch contact: the fields kept by copyTouch in the source. -/
structure Touch where
  clientX : ℝ
  clientY : ℝ
  identifier : ℕ

/-- Source function intersects: squared distance from the circle center to the
touch is at most the squared radius (inclusive boundary). -/
def intersects (c : Circle) (t : Touch) : Prop :=
  (c.x - t.clientX) ^ 2 + (c.y - t.clientY) ^ 2 ≤ c.r ^ 2

instance (c : Circle) (t : Touch) : Decidable (intersects c t) :=
  inferInstanceAs (Decidable (_ ≤ _))

/-- JavaScript Math.round: round half toward positive infinity. -/
def jround (x : ℝ) : ℤ := ⌊x + 1 / 2⌋

/-- Source function map: slope = (outputEnd - outputStart) / (inputEnd - inputStart),
result = round(outputStart + slope * (input - inputStart)). -/
def map (input inputStart inputEnd outputStart outputEnd : ℝ) : ℤ :=
  jround (outputStart + (outputEnd - outputStart) / (inputEnd - inputStart) * (input - inputStart))

/-- JavaScript Math.hypot on two arguments. -/
def hypot (x y : ℝ) : ℝ := Real.sqrt (x ^ 2 + y ^ 2)

/-- The Joystick class state: pivot center, outer and inner radii, the bound
touch identifier (null when released) and the knob position. -/
structure Joystick where
  centerX : ℝ
  centerY : ℝ
  outerRadius : ℝ
  innerRadius : ℝ
  touch : Option ℕ
  stickX : ℝ
  stickY : ℝ

/-- The Joystick constructor: innerRadius = outerRadius / innerRadiusDivisor,
no bound touch, knob at the pivot center. -/
def mkJoystick (x y outerRadius innerRadiusDivisor : ℝ) : Joystick :=
  { centerX := x
    centerY := y
    outerRadius := outerRadius
    innerRadius := outerRadius / innerRadiusDivisor
    touch := none
    stickX := x
    stickY := y }

/-- The ring getter: the outer circle. -/
def Joystick.ring (j : Joystick) : Circle :=
  { x := j.centerX, y := j.centerY, r := j.outerRadius }

/-- The stick getter: the knob circle. -/
def Joystick.stick (j : Joystick) : Circle :=
  { x := j.stickX, y := j.stickY, r := j.innerRadius }

/-- The stickValue getter.  The source output bounds are -(1 << 15) - 1 and
1 << 15, written here as -(2 ^ 15) - 1 and 2 ^ 15. -/
def Joystick.stickValue (j : Joystick) : ℤ × ℤ :=
  (map (j.stickX - j.centerX) (-j.outerRadius) j.outerRadius (-(2 ^ 15 : ℝ) - 1) (2 ^ 15),
   map (j.centerY - j.stickY) (-j.outerRadius) j.outerRadius (-(2 ^ 15 : ℝ) - 1) (2 ^ 15))

/-- The loop body of ontouchstart: scan the changed touches in order, bind the
first one inside the ring (the source breaks out of the loop after binding). -/
def touchstartLoop (j : Joystick) : List Touch → Joystick
  | [] => j
  | t :: ts =>
    if intersects j.ring t then
      { j with touch := some t.identifier, stickX := t.clientX, stickY := t.clientY }
    else touchstartLoop j ts

/-- ontouchstart: return immediately when a touch is already bound, otherwise
scan the batch for the first contact inside the ring. -/
def Joystick.ontouchstart (j : Joystick) (ts : List Touch) : Joystick :=
  if j.touch ≠ none then j else touchstartLoop j ts

/-- ontouchmove of the most complete variant.  In the source the break
statement sits in the loop body outside the identifier test, so the loop
always stops after its first iteration: only the head of the batch is ever
examined.  When the head is the bound touch and lies inside the ring the knob
takes its raw position; when it lies outside, the knob is projected onto the
ring boundary along the ray from the center, dividing by Math.hypot of the
offsets. -/
def Joystick.ontouchmove (j : Joystick) (ts : List Touch) : Joystick :=
  if j.touch = none then j
  else
    match ts with
    | [] => j
    | t :: _ =>
      if some t.identifier = j.touch then
        if intersects j.ring t then
          { j with stickX := t.clientX, stickY := t.clientY }
        else
          { j with
            stickX := j.centerX + j.outerRadius * (t.clientX - j.centerX) /
                hypot (t.clientX - j.centerX) (t.clientY - j.centerY)
            stickY := j.centerY + j.outerRadius * (t.clientY - j.centerY) /
                hypot (t.clientX - j.centerX) (t.clientY - j.centerY) }
      else j

/-- ontouchend of the most complete variant: for every ended touch matching the
bound identifier, clear the binding and reset the knob to the pivot center
(stickX to centerX, stickY to centerY). -/
def Joystick.ontouchend (j : Joystick) (ts : List Touch) : Joystick :=
  ts.foldl
    (fun j t =>
      if some t.identifier = j.touch then
        { j with touch := none, stickX := j.centerX, stickY := j.centerY }
      else j)
    j

/-- ontouchend of the older controller variant: identical except that the
second reset line assigns this.stickY = this.centerX, resetting the knob Y
coordinate to the pivot X coordinate. -/
def Joystick.ontouchend_v0 (j : Joystick) (ts : List Touch) : Joystick :=
  ts.foldl
    (fun j t =>
      if some t.identifier = j.touch then
        { j with touch := none, stickX := j.centerX, stickY := j.centerX }
      else j)
    j

/-- A button of the Buttons class: a circle carrying a color tag and a bit flag. -/
structure Button where
  x : ℝ
  y : ℝ
  r : ℝ
  color : String
  mask : ℕ

/-- The circle part of a button, as passed to intersects in the source. -/
def Button.circle (b : Button) : Circle :=
  { x := b.x, y := b.y, r := b.r }

/-- One entry of the extra array handed to the Buttons constructor. -/
structure ExtraSpec where
  color : String
  mask : ℕ

/-- The Buttons constructor of the most complete variant: four circles placed
north, south, west and east of the pivot at distance pivot.r + buttonRadius,
then the array [north, east, west, south] zipped positionally with the extra
color/mask entries (Object.assign of extra[i] onto the circle at index i; every
call site passes exactly four entries). -/
def mkButtons (pivot : Circle) (buttonRadius : ℝ) (extra : List ExtraSpec) : List Button :=
  let north : Circle := { x := pivot.x, y := pivot.y - pivot.r - buttonRadius, r := buttonRadius }
  let south : Circle := { x := pivot.x, y := pivot.y + pivot.r + buttonRadius, r := buttonRadius }
  let west : Circle := { x := pivot.x - pivot.r - buttonRadius, y := pivot.y, r := buttonRadius }
  let east : Circle := { x := pivot.x + pivot.r + buttonRadius, y := pivot.y, r := buttonRadius }
  List.zipWith (fun c e => { x := c.x, y := c.y, r := c.r, color := e.color, mask := e.mask })
    [north, east, west, south] extra

/-- The extra array buildScene passes for the left button cluster. -/
def leftExtra : List ExtraSpec :=
  [{ color := "orange", mask := 0x0001 },
   { color := "orange", mask := 0x0008 },
   { color := "orange", mask := 0x0004 },
   { color := "orange", mask := 0x0002 }]

/-- The extra array buildScene passes for the right button cluster. -/
def rightExtra : List ExtraSpec :=
  [{ color := "gold", mask := 0x8000 },
   { color := "green", mask := 0x1000 },
   { color := "blue", mask := 0x4000 },
   { color := "red", mask := 0x2000 }]

/-- The pressed test of Buttons.draw: some currently active contact intersects
the button circle. -/
def pressed (b : Button) (touches : List Touch) : Prop :=
  ∃ t ∈ touches, intersects b.circle t

instance (b : Button) (touches : List Touch) : Decidable (pressed b touches) :=
  List.decidableBEx _ touches

/-- The state accumulation of Buttons.draw: start from 0 and OR in the mask of
every pressed button, in button order. -/
def buttonsState (bs : List Button) (touches : List Touch) : ℕ :=
  bs.foldl (fun st b => if pressed b touches then st ||| b.mask else st) 0

/-- The wire record sent by the main loop. -/
structure Frame where
  buttons : ℕ
  left_trigger : ℤ
  right_trigger : ℤ
  left_thumbstick : ℤ × ℤ
  right_thumbstick : ℤ × ℤ

/-- The mutable scene of the most complete variant: two joysticks, two button
clusters, and the ongoingTouches registry (a map kept here as its list of
values in insertion order). -/
structure Scene where
  leftJoystick : Joystick
  rightJoystick : Joystick
  leftButtons : List Button
  rightButtons : List Button
  ongoing : List Touch

/-- ongoingTouches.set for one touch: overwrite the entry with the same
identifier when present, append otherwise. -/
def upsert (reg : List Touch) (t : Touch) : List Touch :=
  if reg.any (fun u => u.identifier == t.identifier) then
    reg.map (fun u => if u.identifier == t.identifier then t else u)
  else reg ++ [t]

/-- The registry part of the touchstart and touchmove listeners. -/
def registryUpdate (reg : List Touch) (ts : List Touch) : List Touch :=
  ts.foldl upsert reg

/-- The registry part of the touchend listener: ongoingTouches.delete. -/
def registryRemove (reg : List Touch) (ts : List Touch) : List Touch :=
  ts.foldl (fun r t => r.filter (fun u => u.identifier != t.identifier)) reg

/-- The touchstart listener: both joysticks see the batch, then the registry
records every changed touch. -/
def sceneTouchStart (s : Scene) (ts : List Touch) : Scene :=
  { s with
    leftJoystick := s.leftJoystick.ontouchstart ts
    rightJoystick := s.rightJoystick.ontouchstart ts
    ongoing := registryUpdate s.ongoing ts }

/-- The touchmove listener. -/
def sceneTouchMove (s : Scene) (ts : List Touch) : Scene :=
  { s with
    leftJoystick := s.leftJoystick.ontouchmove ts
    rightJoystick := s.rightJoystick.ontouchmove ts
    ongoing := registryUpdate s.ongoing ts }

/-- The touchend listener. -/
def sceneTouchEnd (s : Scene) (ts : List Touch) : Scene :=
  { s with
    leftJoystick := s.leftJoystick.ontouchend ts
    rightJoystick := s.rightJoystick.ontouchend ts
    ongoing := registryRemove s.ongoing ts }

/-- The emission step of one mainloop tick: the draw calls recompute both
button states from the registry, then, only when ws.readyState is OPEN, one
frame is handed to ws.send; otherwise nothing is sent. -/
def mainloopSend (s : Scene) (wsOpen : Bool) : Option Frame :=
  if wsOpen then
    some
      { buttons := buttonsState s.leftButtons s.ongoing ||| buttonsState s.rightButtons s.ongoing
        left_trigger := 0
        right_trigger := 0
        left_thumbstick := s.leftJoystick.stickValue
        right_thumbstick := s.rightJoystick.stickValue }
  else none

/-- One touch notification batch delivered to a single joystick. -/
inductive TouchEvent where
  | start (ts : List Touch)
  | move (ts : List Touch)
  | stop (ts : List Touch)

/-- Dispatch one batch to the corresponding Joystick handler. -/
def applyEvent (j : Joystick) : TouchEvent → Joystick
  | .start ts => j.ontouchstart ts
  | .move ts => j.ontouchmove ts
  | .stop ts => j.ontouchend ts

/-- Process a whole sequence of touch notification batches. -/
def run (j : Joystick) (es : List TouchEvent) : Joystick :=
  es.foldl applyEvent j

/-! Spec-side definitions, written after the wording of the specification for
refinement comparisons against the source-side definitions above. -/

/-- Spec-side mapRange: outLo + round((value - inLo) * (outHi - outLo) / (inHi - inLo)),
with the integer output bounds added outside the rounding. -/
def mapRange (value inLo inHi : ℝ) (outLo outHi : ℤ) : ℤ :=
  outLo + jround ((value - inLo) * ((outHi - outLo : ℤ) : ℝ) / (inHi - inLo))

/-- Spec-side button mask: the bitwise OR of the flags of exactly those buttons
for which at least one active contact lies within the inclusive boundary. -/
def maskSpec (bs : List Button) (touches : List Touch) : ℕ :=
  ((bs.filter fun b =>
      decide (∃ t ∈ touches,
        (b.x - t.clientX) ^ 2 + (b.y - t.clientY) ^ 2 ≤ b.r ^ 2)).map Button.mask).foldr
    (· ||| ·) 0

/-- Spec-side frame assembly: buttons is the OR across both group masks,
triggers are fixed at zero, thumbsticks carry the stick values. -/
def assembleFrame (s : Scene) : Frame :=
  { buttons := maskSpec s.leftButtons s.ongoing ||| maskSpec s.rightButtons s.ongoing
    left_trigger := 0
    right_trigger := 0
    left_thumbstick := s.leftJoystick.stickValue
    right_thumbstick := s.rightJoystick.stickValue }

/-- The stick invariant of the specification: a released stick rests at the
pivot center; an engaged stick keeps its knob within or on the outer ring. -/
def StickInv (j : Joystick) : Prop :=
  (j.touch = none → j.stickX = j.centerX ∧ j.stickY = j.centerY) ∧
  (j.touch ≠ none →
    (j.stickX - j.centerX) ^ 2 + (j.stickY - j.centerY) ^ 2 ≤ j.outerRadius ^ 2)

/-! Concrete states used by the individual results below. -/

/-- An engaged stick: ring center (100, 100), outer radius 50, bound to touch 7,
knob resting at the center. -/
def jMove : Joystick :=
  { centerX := 100, centerY := 100, outerRadius := 50, innerRadius := 12.5,
    touch := some 7, stickX := 100, stickY := 100 }

/-- An engaged stick with distinct pivot coordinates: center (100, 200), bound
to touch 5, knob at (150, 180). -/
def jEnd : Joystick :=
  { centerX := 100, centerY := 200, outerRadius := 50, innerRadius := 12.5,
    touch := some 5, stickX := 150, stickY := 180 }

/-! Helper lemmas shared by the results below. -/

/-- The loop of ontouchstart binds the first batch entry inside the ring, as
List.find? selects it. -/
theorem touchstartLoop_eq_find (j : Joystick) (ts : List Touch) :
    touchstartLoop j ts =
      match ts.find? (fun t => decide (intersects j.ring t)) with
      | some t => { j with touch := some t.identifier, stickX := t.clientX, stickY := t.clientY }
      | none => j := by
  induction ts with
  | nil => simp [touchstartLoop]
  | cons t ts ih =>
    by_cases h : intersects j.ring t
    · simp [touchstartLoop, List.find?_cons, h]
    · simp [touchstartLoop, List.find?_cons, h, ih]

/-- The draw accumulation of a button group equals an arbitrary accumulator
ORed with the spec-side mask. -/
theorem buttonsFold_eq (ts : List Touch) (bs : List Button) :
    ∀ a : ℕ,
      List.foldl (fun st b => if pressed b ts then st ||| b.mask else st) a bs =
        a ||| maskSpec bs ts := by
  induction bs with
  | nil => intro a; simp [maskSpec]
  | cons b bs ih =>
    intro a
    by_cases h : pressed b ts
    · have hd : (decide (∃ t ∈ ts,
          (b.x - t.clientX) ^ 2 + (b.y - t.clientY) ^ 2 ≤ b.r ^ 2)) = true :=
        decide_eq_true h
      simp only [maskSpec, List.filter_cons, hd, if_true, List.map_cons, List.foldr_cons,
        List.foldl_cons, if_pos h]
      rw [ih]
      simp only [maskSpec]
      exact Nat.or_assoc a b.mask _
    · have hd : (decide (∃ t ∈ ts,
          (b.x - t.clientX) ^ 2 + (b.y - t.clientY) ^ 2 ≤ b.r ^ 2)) = false :=
        decide_eq_false h
      simp only [maskSpec, List.filter_cons, hd, Bool.false_eq_true, if_false,
        List.foldl_cons, if_neg h]
      rw [ih]
      simp only [maskSpec]

/-- The state computed by Buttons.draw equals the spec-side mask. -/
theorem buttonsState_eq (bs : List Button) (ts : List Touch) :
    buttonsState bs ts = maskSpec bs ts := by
  unfold buttonsState
  rw [buttonsFold_eq]
  exact Nat.zero_or _

/-- A point projected onto the circle boundary lies within the squared-radius
bound; the divisor is the hypot of the offsets and the hypothesis is the
negation of the in-ring test. -/
theorem proj_within (r dx dy : ℝ) (hlt : r ^ 2 < dx ^ 2 + dy ^ 2) :
    (r * dx / hypot dx dy) ^ 2 + (r * dy / hypot dx dy) ^ 2 ≤ r ^ 2 := by
  have hs : (0 : ℝ) < dx ^ 2 + dy ^ 2 := lt_of_le_of_lt (sq_nonneg r) hlt
  have hh : hypot dx dy ^ 2 = dx ^ 2 + dy ^ 2 := Real.sq_sqrt hs.le
  refine le_of_eq ?_
  calc (r * dx / hypot dx dy) ^ 2 + (r * dy / hypot dx dy) ^ 2
      = r ^ 2 * (dx ^ 2 + dy ^ 2) / hypot dx dy ^ 2 := by ring
    _ = r ^ 2 * (dx ^ 2 + dy ^ 2) / (dx ^ 2 + dy ^ 2) := by rw [hh]
    _ = r ^ 2 := mul_div_cancel_right₀ _ hs.ne'

/-- The touch-start handler preserves the stick invariant. -/
theorem stickInv_start (j : Joystick) (ts : List Touch) (h : StickInv j) :
    StickInv (j.ontouchstart ts) := by
  unfold Joystick.ontouchstart
  by_cases hb : j.touch ≠ none
  · rwa [if_pos hb]
  · rw [if_neg hb]
    induction ts with
    | nil => exact h
    | cons t ts ih =>
      by_cases hi : intersects j.ring t
      · rw [touchstartLoop, if_pos hi]
        constructor
        · intro hc; exact absurd hc (by simp)
        · intro _
          have hi2 : (j.centerX - t.clientX) ^ 2 + (j.centerY - t.clientY) ^ 2 ≤
              j.outerRadius ^ 2 := hi
          have e1 : (t.clientX - j.centerX) ^ 2 = (j.centerX - t.clientX) ^ 2 := by ring
          have e2 : (t.clientY - j.centerY) ^ 2 = (j.centerY - t.clientY) ^ 2 := by ring
          simpa [e1, e2] using hi2
      · rw [touchstartLoop, if_neg hi]
        exact ih

/-- The touch-move handler preserves the stick invariant. -/
theorem stickInv_move (j : Joystick) (ts : List Touch) (h : StickInv j) :
    StickInv (j.ontouchmove ts) := by
  by_cases hb : j.touch = none
  · simpa [Joystick.ontouchmove, hb] using h
  · cases ts with
    | nil => simpa [Joystick.ontouchmove, hb] using h
    | cons t rest =>
      by_cases hid : some t.identifier = j.touch
      · by_cases hi : intersects j.ring t
        · have hred : j.ontouchmove (t :: rest) =
              { j with stickX := t.clientX, stickY := t.clientY } := by
            simp [Joystick.ontouchmove, hb, hid, hi]
          rw [hred]
          constructor
          · intro hc; exact absurd hc hb
          · intro _
            have hi2 : (j.centerX - t.clientX) ^ 2 + (j.centerY - t.clientY) ^ 2 ≤
                j.outerRadius ^ 2 := hi
            have e1 : (t.clientX - j.centerX) ^ 2 = (j.centerX - t.clientX) ^ 2 := by ring
            have e2 : (t.clientY - j.centerY) ^ 2 = (j.centerY - t.clientY) ^ 2 := by ring
            simpa [e1, e2] using hi2
        · have hred : j.ontouchmove (t :: rest) =
              { j with
                stickX := j.centerX + j.outerRadius * (t.clientX - j.centerX) /
                    hypot (t.clientX - j.centerX) (t.clientY - j.centerY)
                stickY := j.centerY + j.outerRadius * (t.clientY - j.centerY) /
                    hypot (t.clientX - j.centerX) (t.clientY - j.centerY) } := by
            simp [Joystick.ontouchmove, hb, hid, hi]
          rw [hred]
          constructor
          · intro hc; exact absurd hc hb
          · intro _
            have hlt : j.outerRadius ^ 2 <
                (t.clientX - j.centerX) ^ 2 + (t.clientY - j.centerY) ^ 2 := by
              have hlt0 := lt_of_not_le hi
              calc j.outerRadius ^ 2
                  < (j.centerX - t.clientX) ^ 2 + (j.centerY - t.clientY) ^ 2 := hlt0
                _ = (t.clientX - j.centerX) ^ 2 + (t.clientY - j.centerY) ^ 2 := by ring
            have hp := proj_within j.outerRadius (t.clientX - j.centerX)
              (t.clientY - j.centerY) hlt
            simpa [add_sub_cancel_left] using hp
      · have hred : j.ontouchmove (t :: rest) = j := by
          simp [Joystick.ontouchmove, hb, hid]
        rw [hred]
        exact h

/-- The touch-end handler preserves the stick invariant. -/
theorem stickInv_end (j : Joystick) (ts : List Touch) (h : StickInv j) :
    StickInv (j.ontouchend ts) := by
  unfold Joystick.ontouchend
  induction ts generalizing j with
  | nil => exact h
  | cons t ts ih =>
    rw [List.foldl_cons]
    refine ih _ ?_
    by_cases hid : some t.identifier = j.touch
    · rw [if_pos hid]
      exact ⟨fun _ => ⟨rfl, rfl⟩, fun hc => absurd rfl hc⟩
    · rwa [if_neg hid]

/-- Every touch notification batch preserves the stick invariant. -/
theorem stickInv_apply (j : Joystick) (e : TouchEvent) (h : StickInv j) :
    StickInv (applyEvent j e) := by
  cases e with
  | start ts => exact stickInv_start j ts h
  | move ts => exact stickInv_move j ts h
  | stop ts => exact stickInv_end j ts h

/-- The constructor establishes the stick invariant. -/
theorem stickInv_mk (x y r d : ℝ) : StickInv (mkJoystick x y r d) :=
  ⟨fun _ => ⟨rfl, rfl⟩, fun hc => absurd rfl hc⟩

/-! Results. -/

/-- Claim C1 (code bug): the move handler of the most complete variant breaks
out of its loop unconditionally after the first batch entry, so a batch whose
first entry is not the bound contact leaves an engaged stick unchanged even
though a later entry carries the bound identifier with a new in-ring position.
Here touch 7 is bound, the batch is [id 3 at (0, 0), id 7 at (120, 100)], and
the stick stays at (100, 100) instead of moving to (120, 100). -/
theorem ontouchmove_skips_later_entries :
    jMove.ontouchmove [⟨0, 0, 3⟩, ⟨120, 100, 7⟩] = jMove ∧
    jMove.stickX ≠ 120 := by
  constructor
  · simp [Joystick.ontouchmove, jMove]
  · norm_num [jMove]

/-- Claim C2 (code bug): the touch-end handler of the older controller variant
resets stickY to centerX.  For a stick centered at (100, 200) bound to touch 5,
ending that touch leaves the knob at (100, 100): the Y coordinate equals the
pivot X coordinate 100, not the pivot Y coordinate 200. -/
theorem ontouchend_reset_defect :
    (jEnd.ontouchend_v0 [⟨150, 180, 5⟩]).touch = none ∧
    (jEnd.ontouchend_v0 [⟨150, 180, 5⟩]).stickX = 100 ∧
    (jEnd.ontouchend_v0 [⟨150, 180, 5⟩]).stickY = 100 ∧
    jEnd.centerY = 200 ∧ (100 : ℝ) ≠ 200 ∧
    (jEnd.ontouchend [⟨150, 180, 5⟩]).stickY = 200 := by
  refine ⟨?_, ?_, ?_, ?_, ?_, ?_⟩ <;>
    norm_num [Joystick.ontouchend_v0, Joystick.ontouchend, jEnd]

/-- Claim C7 (code bug): in the most complete variant the extra color/mask
array is zipped onto the button array in the order [north, east, west, south],
so with the right-cluster masks [0x8000, 0x1000, 0x4000, 0x2000] the button
east of the pivot (here at (15, 0)) receives flag 0x1000 and the south button
(here at (0, 15)) receives flag 0x2000, the opposite of the canonical
south=0x1000 / east=0x2000 assignment. -/
theorem rightButtons_mask_misassigned :
    (mkButtons ⟨0, 0, 10⟩ 5 rightExtra).map (fun b => (b.x, b.y, b.mask)) =
      [((0 : ℝ), (-15 : ℝ), 0x8000), (15, 0, 0x1000), (-15, 0, 0x4000), (0, 15, 0x2000)] ∧
    (0x1000 : ℕ) ≠ 0x2000 := by
  constructor
  · norm_num [mkButtons, rightExtra]
  · norm_num

/-- Claim C5: a released stick processing a touch-start batch binds the first
contact of the batch inside the outer ring, taking its identifier and its raw
position as the knob position (ENGAGED is the state with a non-null bound
identifier); when no contact qualifies, or the stick is already engaged, the
state is unchanged. -/
theorem ontouchstart_first_inside_binds (j : Joystick) (ts : List Touch) :
    (j.touch = none →
      j.ontouchstart ts =
        match ts.find? (fun t => decide (intersects j.ring t)) with
        | some t =>
            { j with touch := some t.identifier, stickX := t.clientX, stickY := t.clientY }
        | none => j) ∧
    (j.touch ≠ none → j.ontouchstart ts = j) := by
  constructor
  · intro h
    rw [Joystick.ontouchstart, if_neg (by simp [h]), touchstartLoop_eq_find]
  · intro h
    rw [Joystick.ontouchstart, if_pos h]

/-- Witness for C5: a released stick at (100, 100) with radius 50 scanning the
batch [id 9 at (200, 200), id 7 at (120, 100), id 8 at (110, 100)] binds id 7,
the first entry inside the ring. -/
theorem ontouchstart_first_inside_binds_witness :
    (mkJoystick 100 100 50 4).touch = none ∧
    (mkJoystick 100 100 50 4).ontouchstart [⟨200, 200, 9⟩, ⟨120, 100, 7⟩, ⟨110, 100, 8⟩] =
      match [(⟨200, 200, 9⟩ : Touch), ⟨120, 100, 7⟩, ⟨110, 100, 8⟩].find?
          (fun t => decide (intersects (mkJoystick 100 100 50 4).ring t)) with
      | some t =>
          { mkJoystick 100 100 50 4 with
              touch := some t.identifier, stickX := t.clientX, stickY := t.clientY }
      | none => mkJoystick 100 100 50 4 :=
  ⟨rfl, (ontouchstart_first_inside_binds (mkJoystick 100 100 50 4) _).1 rfl⟩

/-- Claim C6: sampling a button group returns the bitwise OR of the flags of
exactly those buttons having at least one active contact within the inclusive
squared-distance boundary; the test depends only on the registry contacts
(never on stick bindings), and a button contributes its flag once no matter
how many contacts press it. -/
theorem sample_mask_exact (bs : List Button) (ts : List Touch) :
    buttonsState bs ts = maskSpec bs ts :=
  buttonsState_eq bs ts

/-- Claim C8: with the transport open, one mainloop tick hands the transport
exactly one frame carrying the OR of both group masks, zero triggers, and both
thumbstick values; with the transport not open, nothing is handed over. -/
theorem mainloopSend_spec (s : Scene) :
    mainloopSend s true = some (assembleFrame s) ∧ mainloopSend s false = none := by
  constructor
  · simp only [mainloopSend, if_pos trivial, assembleFrame, buttonsState_eq]
  · simp [mainloopSend]

/-- Claim C3: from the freshly constructed stick, every sequence of
touch-start, touch-move and touch-end batches leads to a state in which a
null binding puts the knob exactly at the pivot center and a non-null binding
keeps the knob within or on the outer ring boundary. -/
theorem stick_invariant (x y r d : ℝ) (es : List TouchEvent) :
    StickInv (run (mkJoystick x y r d) es) := by
  suffices hstep : ∀ j : Joystick, StickInv j → StickInv (run j es) from
    hstep _ (stickInv_mk x y r d)
  unfold run
  induction es with
  | nil => intro j h; exact h
  | cons e es ih =>
    intro j h
    rw [List.foldl_cons]
    exact ih _ (stickInv_apply j e h)

/-- Witness for C3: the invariant holds after a start, an out-of-ring move and
an end batch from the stick constructed at (100, 100) with radius 50. -/
theorem stick_invariant_witness :
    StickInv (run (mkJoystick 100 100 50 4)
      [TouchEvent.start [⟨120, 100, 7⟩], TouchEvent.move [⟨300, 100, 7⟩],
       TouchEvent.stop [⟨300, 100, 7⟩]]) :=
  stick_invariant 100 100 50 4 _

/-- Claim C4: for a stick of non-zero outer radius, stickValue equals the
spec-side mapRange applied to the knob offset with the asymmetric integer
output bounds -32769 and 32768, with the Y axis inverted (pivotY - knobY). -/
theorem stickValue_eq_mapRange (j : Joystick) (h : j.outerRadius ≠ 0) :
    j.stickValue =
      (mapRange (j.stickX - j.centerX) (-j.outerRadius) j.outerRadius (-32769) 32768,
       mapRange (j.centerY - j.stickY) (-j.outerRadius) j.outerRadius (-32769) 32768) := by
  have key : ∀ v : ℝ,
      map v (-j.outerRadius) j.outerRadius (-(2 ^ 15 : ℝ) - 1) (2 ^ 15) =
        mapRange v (-j.outerRadius) j.outerRadius (-32769) 32768 := by
    intro v
    unfold map mapRange jround
    have harg : -(2 ^ 15 : ℝ) - 1 +
        (2 ^ 15 - (-(2 ^ 15 : ℝ) - 1)) / (j.outerRadius - -j.outerRadius) *
          (v - -j.outerRadius) + 1 / 2 =
        ((-32769 : ℤ) : ℝ) +
          ((v - -j.outerRadius) * (((32768 : ℤ) - (-32769 : ℤ) : ℤ) : ℝ) /
            (j.outerRadius - -j.outerRadius) + 1 / 2) := by
      push_cast
      ring
    rw [harg, Int.floor_int_add]
  unfold Joystick.stickValue
  rw [key, key]

/-- Witness for C4: the stick constructed at (100, 100) with radius 50 has a
non-zero radius and its rest value matches the spec-side mapRange pair. -/
theorem stickValue_eq_mapRange_witness :
    (mkJoystick 100 100 50 4).outerRadius ≠ 0 ∧
    (mkJoystick 100 100 50 4).stickValue =
      (mapRange ((mkJoystick 100 100 50 4).stickX - (mkJoystick 100 100 50 4).centerX)
        (-(mkJoystick 100 100 50 4).outerRadius) (mkJoystick 100 100 50 4).outerRadius
        (-32769) 32768,
       mapRange ((mkJoystick 100 100 50 4).centerY - (mkJoystick 100 100 50 4).stickY)
        (-(mkJoystick 100 100 50 4).outerRadius) (mkJoystick 100 100 50 4).outerRadius
        (-32769) 32768) :=
  ⟨by norm_num [mkJoystick], stickValue_eq_mapRange (mkJoystick 100 100 50 4)
    (by norm_num [mkJoystick])⟩

/-- Claim C9: the boundary-projection branch of the move handler runs only for
the bound contact strictly outside the ring, so with a non-negative outer
radius the Math.hypot divisor of both projection divisions is strictly
positive and no division by zero occurs. -/
theorem projection_divisor_pos (j : Joystick) (t : Touch)
    (hr : 0 ≤ j.outerRadius) (hb : j.touch = some t.identifier)
    (hout : ¬ intersects j.ring t) :
    0 < hypot (t.clientX - j.centerX) (t.clientY - j.centerY) := by
  have hlt : j.outerRadius ^ 2 <
      (j.centerX - t.clientX) ^ 2 + (j.centerY - t.clientY) ^ 2 := lt_of_not_le hout
  have hpos : (0 : ℝ) < (t.clientX - j.centerX) ^ 2 + (t.clientY - j.centerY) ^ 2 := by
    nlinarith [sq_nonneg j.outerRadius]
  exact Real.sqrt_pos.mpr hpos

/-- Witness for C9: the stick at (100, 100) with radius 50 bound to touch 7,
with that touch moved to (300, 100), is outside the ring and its hypot divisor
is positive. -/
theorem projection_divisor_pos_witness :
    (0 : ℝ) ≤ jMove.outerRadius ∧ jMove.touch = some (7 : ℕ) ∧
    ¬ intersects jMove.ring ⟨300, 100, 7⟩ ∧
    0 < hypot ((300 : ℝ) - jMove.centerX) ((100 : ℝ) - jMove.centerY) :=
  ⟨by norm_num [jMove], rfl, by norm_num [intersects, Joystick.ring, jMove],
    projection_divisor_pos jMove ⟨300, 100, 7⟩ (by norm_num [jMove]) rfl
      (by norm_num [intersects, Joystick.ring, jMove])⟩

/-- A scene with two released sticks whose rings overlap: the left ring is
centered at (0, 0) and the right ring at (60, 0), both with radius 50. -/
def sceneEx : Scene :=
  { leftJoystick := mkJoystick 0 0 50 4
    rightJoystick := mkJoystick 60 0 50 4
    leftButtons := mkButtons ⟨0, -100, 10⟩ 5 leftExtra
    rightButtons := mkButtons ⟨60, -100, 10⟩ 5 rightExtra
    ongoing := [] }

/-- Touch 1 at (-40, 0): inside the left ring only. -/
def touchA : Touch := ⟨-40, 0, 1⟩

/-- Touch 2 at (30, 0): inside both rings. -/
def touchB : Touch := ⟨30, 0, 2⟩

/-- Counterexample to claim C10 as stated: the batch [touch 1, touch 2]
contains touch 2, which lies inside both outer rings while both sticks are
released, yet after the batch the left stick is bound to touch 1 (the first
batch entry inside its ring), not to touch 2, so the two sticks do not share
the binding to the doubly-inside contact. -/
theorem cross_stick_counterexample :
    sceneEx.leftJoystick.touch = none ∧ sceneEx.rightJoystick.touch = none ∧
    intersects sceneEx.leftJoystick.ring touchB ∧
    intersects sceneEx.rightJoystick.ring touchB ∧
    (sceneTouchStart sceneEx [touchA, touchB]).leftJoystick.touch = some touchA.identifier ∧
    (sceneTouchStart sceneEx [touchA, touchB]).rightJoystick.touch = some touchB.identifier ∧
    touchA.identifier ≠ touchB.identifier := by
  refine ⟨rfl, rfl, ?_, ?_, ?_, ?_, by norm_num [touchA, touchB]⟩
  · norm_num [intersects, Joystick.ring, sceneEx, mkJoystick, touchB]
  · norm_num [intersects, Joystick.ring, sceneEx, mkJoystick, touchB]
  · norm_num [sceneTouchStart, Joystick.ontouchstart, touchstartLoop, intersects,
      Joystick.ring, sceneEx, mkJoystick, touchA, touchB]
  · norm_num [sceneTouchStart, Joystick.ontouchstart, touchstartLoop, intersects,
      Joystick.ring, sceneEx, mkJoystick, touchA, touchB]

/-- Claim C10 amended: when the same contact is the first batch entry inside
the left ring and also the first inside the right ring (in particular for a
single-contact batch) while both sticks are released, the touch-start listener
binds both sticks to that one contact, and a later move batch headed by that
contact, still inside both rings, drives both knobs to its raw position. -/
theorem cross_stick_shared_binding (s : Scene) (ts : List Touch) (t : Touch)
    (hl : s.leftJoystick.touch = none) (hr : s.rightJoystick.touch = none)
    (hfl : ts.find? (fun u => decide (intersects s.leftJoystick.ring u)) = some t)
    (hfr : ts.find? (fun u => decide (intersects s.rightJoystick.ring u)) = some t) :
    (sceneTouchStart s ts).leftJoystick.touch = some t.identifier ∧
    (sceneTouchStart s ts).rightJoystick.touch = some t.identifier ∧
    ∀ t2 : Touch, t2.identifier = t.identifier →
      intersects (sceneTouchStart s ts).leftJoystick.ring t2 →
      intersects (sceneTouchStart s ts).rightJoystick.ring t2 →
      (sceneTouchMove (sceneTouchStart s ts) [t2]).leftJoystick.stickX = t2.clientX ∧
      (sceneTouchMove (sceneTouchStart s ts) [t2]).leftJoystick.stickY = t2.clientY ∧
      (sceneTouchMove (sceneTouchStart s ts) [t2]).rightJoystick.stickX = t2.clientX ∧
      (sceneTouchMove (sceneTouchStart s ts) [t2]).rightJoystick.stickY = t2.clientY := by
  have hL : (sceneTouchStart s ts).leftJoystick =
      { s.leftJoystick with
          touch := some t.identifier, stickX := t.clientX, stickY := t.clientY } := by
    show s.leftJoystick.ontouchstart ts = _
    rw [Joystick.ontouchstart, if_neg (by simp [hl]), touchstartLoop_eq_find, hfl]
  have hR : (sceneTouchStart s ts).rightJoystick =
      { s.rightJoystick with
          touch := some t.identifier, stickX := t.clientX, stickY := t.clientY } := by
    show s.rightJoystick.ontouchstart ts = _
    rw [Joystick.ontouchstart, if_neg (by simp [hr]), touchstartLoop_eq_find, hfr]
  refine ⟨by rw [hL], by rw [hR], ?_⟩
  intro t2 hid hil hir
  rw [hL] at hil
  rw [hR] at hir
  have hil2 : intersects
      { x := s.leftJoystick.centerX, y := s.leftJoystick.centerY,
        r := s.leftJoystick.outerRadius } t2 := hil
  have hir2 : intersects
      { x := s.rightJoystick.centerX, y := s.rightJoystick.centerY,
        r := s.rightJoystick.outerRadius } t2 := hir
  refine ⟨?_, ?_, ?_, ?_⟩ <;>
    simp [sceneTouchMove, Joystick.ontouchmove, Joystick.ring, hL, hR, hid, hil2, hir2]

/-- Witness for the amended C10: the single-contact batch [touch 2] binds both
sticks of the overlapping-ring scene to touch 2. -/
theorem cross_stick_shared_binding_witness :
    sceneEx.leftJoystick.touch = none ∧ sceneEx.rightJoystick.touch = none ∧
    [touchB].find? (fun u => decide (intersects sceneEx.leftJoystick.ring u)) = some touchB ∧
    [touchB].find? (fun u => decide (intersects sceneEx.rightJoystick.ring u)) = some touchB ∧
    ((sceneTouchStart sceneEx [touchB]).leftJoystick.touch = some touchB.identifier ∧
     (sceneTouchStart sceneEx [touchB]).rightJoystick.touch = some touchB.identifier ∧
     ∀ t2 : Touch, t2.identifier = touchB.identifier →
       intersects (sceneTouchStart sceneEx [touchB]).leftJoystick.ring t2 →
       intersects (sceneTouchStart sceneEx [touchB]).rightJoystick.ring t2 →
       (sceneTouchMove (sceneTouchStart sceneEx [touchB]) [t2]).leftJoystick.stickX =
           t2.clientX ∧
       (sceneTouchMove (sceneTouchStart sceneEx [touchB]) [t2]).leftJoystick.stickY =
           t2.clientY ∧
       (sceneTouchMove (sceneTouchStart sceneEx [touchB]) [t2]).rightJoystick.stickX =
           t2.clientX ∧
       (sceneTouchMove (sceneTouchStart sceneEx [touchB]) [t2]).rightJoystick.stickY =
           t2.clientY) := by
  have hfl : [touchB].find?
      (fun u => decide (intersects sceneEx.leftJoystick.ring u)) = some touchB := by
    have hd : decide (intersects sceneEx.leftJoystick.ring touchB) = true :=
      decide_eq_true (by norm_num [intersects, Joystick.ring, sceneEx, mkJoystick, touchB])
    simp [List.find?_cons, hd]
  have hfr : [touchB].find?
      (fun u => decide (intersects sceneEx.rightJoystick.ring u)) = some touchB := by
    have hd : decide (intersects sceneEx.rightJoystick.ring touchB) = true :=
      decide_eq_true (by norm_num [intersects, Joystick.ring, sceneEx, mkJoystick, touchB])
    simp [List.find?_cons, hd]
  exact ⟨rfl, rfl, hfl, hfr,
    cross_stick_shared_binding sceneEx [touchB] touchB rfl rfl hfl hfr⟩

end

end Sphrosyne
